import Mathlib

/-!
Shallow embedding of the `MailboxDO` durable object from
`src/packages/worker/src/durableObject/index.ts`.

The SQLite tables owned by one durable-object instance are modelled as
lists of row records inside a `MailboxState`.  Each RPC method of the
class becomes a Lean function on that state; methods that can `throw`
return `Except String`.  Sources of nondeterminism in the original
(`Date.now()`, `crypto.randomUUID()`, the random salt from
`crypto.getRandomValues`, and the PBKDF2 primitive `crypto.subtle`)
are passed in as explicit parameters: `now`, freshly generated ids,
the salt bytes, and an abstract deterministic key-derivation function
`kdf : String → List Nat → List Nat` standing for
PBKDF2(SHA-256, 100000 iterations) applied to (password, salt).
`btoa`/`atob` over byte strings are implemented concretely as base64.
-/

namespace EmailExplorer

/-- Row of the `users` table (AUTH schema).  `is_admin` is stored as the
integer 0/1 exactly as the code writes it. -/
structure UserRow where
  id : String
  email : String
  password_hash : String
  is_admin : Nat
  created_at : Nat
  updated_at : Nat
deriving DecidableEq

/-- Row of the `sessions` table (AUTH schema). -/
structure SessionRow where
  id : String
  user_id : String
  expires_at : Nat
  created_at : Nat
deriving DecidableEq

/-- Row of the `user_mailboxes` table (AUTH schema). -/
structure GrantRow where
  user_id : String
  mailbox_id : String
  role : String
deriving DecidableEq

/-- Row of the `folders` table (mailbox schema).  `is_deletable` stored as 0/1. -/
structure FolderRow where
  id : String
  name : String
  is_deletable : Nat
deriving DecidableEq

/-- Row of the `emails` table (mailbox schema). -/
structure EmailRow where
  id : String
  subject : String
  sender : String
  recipient : String
  date : String
  body : String
  read : Nat
  starred : Nat
  folder_id : String
  in_reply_to : Option String
  email_references : Option String
  thread_id : Option String
deriving DecidableEq

/-- Row of the `attachments` table (mailbox schema). -/
structure AttachmentRow where
  id : String
  email_id : String
  filename : String
  mimetype : String
  size : Nat
  content_id : Option String
  disposition : Option String
deriving DecidableEq

/-- The SQLite state of one durable-object instance, together with the
`#isAuthDO` flag computed in the constructor. -/
structure MailboxState where
  isAuthDO : Bool
  users : List UserRow
  sessions : List SessionRow
  user_mailboxes : List GrantRow
  folders : List FolderRow
  emails : List EmailRow
  attachments : List AttachmentRow
deriving DecidableEq

/-- The `Session` value returned to callers of `login` / `validateSession`. -/
structure Session where
  id : String
  userId : String
  email : String
  isAdmin : Bool
  expiresAt : Nat
deriving DecidableEq

/-- The `User` value returned by `register` / `getUsers` / `getUserByEmail`. -/
structure User where
  id : String
  email : String
  isAdmin : Bool
  createdAt : Nat
  updatedAt : Nat
deriving DecidableEq

/-! ### Base64 (`btoa` / `atob` over byte values) -/

/-- The base64 alphabet used by `btoa`. -/
def b64Alphabet : List Char :=
  ("ABCDEFGHIJKLMNOPQRSTUVWXYZabcdefghijklmnopqrstuvwxyz0123456789+/").data

/-- Character of the base64 alphabet at a 6-bit index. -/
def b64Char (i : Nat) : Char := b64Alphabet.getD i 'A'

/-- Index of a base64 character in the alphabet, the inverse lookup `atob`
performs. -/
def b64Index (c : Char) : Nat := b64Alphabet.indexOf c

/-- Base64 encoding of a byte list, as `btoa(String.fromCharCode(...bytes))`
produces it, including `=` padding. -/
def btoaChars : List Nat → List Char
  | [] => []
  | [a] => [b64Char (a / 4), b64Char (a % 4 * 16), '=', '=']
  | [a, b] => [b64Char (a / 4), b64Char (a % 4 * 16 + b / 16), b64Char (b % 16 * 4), '=']
  | a :: b :: c :: rest =>
    b64Char (a / 4) :: b64Char (a % 4 * 16 + b / 16) ::
      b64Char (b % 16 * 4 + c / 64) :: b64Char (c % 64) :: btoaChars rest

/-- Base64 decoding of a padding-stripped character list. -/
def atobCore : List Char → List Nat
  | w :: x :: y :: z :: rest =>
    (b64Index w * 4 + b64Index x / 16) :: (b64Index x % 16 * 16 + b64Index y / 4) ::
      (b64Index y % 4 * 64 + b64Index z) :: atobCore rest
  | [w, x, y] => [b64Index w * 4 + b64Index x / 16, b64Index x % 16 * 16 + b64Index y / 4]
  | [w, x] => [b64Index w * 4 + b64Index x / 16]
  | [_] => []
  | [] => []

/-- Base64 decoding as `atob` behaves on well-formed input: padding is
dropped, then 6-bit groups are reassembled into bytes. -/
def atobChars (s : List Char) : List Nat := atobCore (s.filter (fun c => c ≠ '='))

/-! ### Auth helpers (`#hashPassword`, `#verifyPassword`) -/

/-- Splitting a character list at `:` separators, as `hash.split(":")`. -/
def splitColon : List Char → List (List Char)
  | [] => [[]]
  | c :: rest =>
    match splitColon rest with
    | [] => [[c]]
    | p :: ps => if c = ':' then [] :: p :: ps else (c :: p) :: ps

/-- The `#hashPassword` helper: derive bits from (password, salt) with the
KDF and store `base64(salt) ++ ":" ++ base64(derivedBits)`.  The 16 random
salt bytes are a parameter here. -/
def hashPassword (kdf : String → List Nat → List Nat) (password : String)
    (salt : List Nat) : String :=
  String.mk (btoaChars salt ++ ':' :: btoaChars (kdf password salt))

/-- The `#verifyPassword` helper: split the stored hash on `:`, re-derive
with the stored salt, compare the base64 of the derived bits with the
stored digest.  Returns `false` when either part is missing or empty. -/
def verifyPassword (kdf : String → List Nat → List Nat) (password : String)
    (hash : String) : Bool :=
  match splitColon hash.data with
  | saltB64 :: storedHash :: _ =>
    if saltB64.isEmpty || storedHash.isEmpty then false
    else
      let salt := atobChars saltB64
      let candidate := btoaChars (kdf password salt)
      candidate = storedHash
  | _ => false

/-! ### Auth operations of `MailboxDO` -/

namespace MailboxDO

open EmailExplorer

/-- The `ensureDefaultAdmins` seeding loop inserts each default admin inside
a `try`/`catch` that swallows the duplicate-insert error raised by the
unique constraints of the `users` table (the `users` schema lives in the
migrations module, which only declares `id` an opaque unique token and
`email` unique, per the data model).  An insert that would collide is
therefore a no-op here. -/
def insertUserSwallowDup (row : UserRow) (users : List UserRow) : List UserRow :=
  if users.any (fun u => u.email = row.email || u.id = row.id) then users
  else users ++ [row]

/-- The `ensureDefaultAdmins` operation: throw on a non-auth DO; return
immediately when any user row exists; otherwise hash the fallback password
once and insert the two fixed admin accounts, swallowing duplicate-insert
errors.  `now`, the salt and the two generated ids are parameters. -/
def ensureDefaultAdmins (kdf : String → List Nat → List Nat) (st : MailboxState)
    (now : Nat) (salt : List Nat) (id1 id2 : String) : Except String MailboxState :=
  if !st.isAuthDO then .error ("Not an auth DO")
  else if st.users.length > 0 then .ok st
  else
    let ph := hashPassword kdf ("admin") salt
    let u1 : UserRow := ⟨id1, "admin@email.230406.xyz", ph, 1, now, now⟩
    let u2 : UserRow := ⟨id2, "admin@230406.xyz", ph, 1, now, now⟩
    let users1 := insertUserSwallowDup u1 st.users
    let users2 := insertUserSwallowDup u2 users1
    .ok { st with users := users2 }

/-- The `hasUsers` operation: `false` on a non-auth DO, otherwise whether
the `users` count is positive. -/
def hasUsers (st : MailboxState) : Except String Bool :=
  if !st.isAuthDO then .ok false
  else .ok (st.users.length > 0)

/-- The `isAdmin` operation: `false` on a non-auth DO, otherwise whether
the row with the given id has `is_admin = 1`. -/
def isAdmin (st : MailboxState) (userId : String) : Except String Bool :=
  if !st.isAuthDO then .ok false
  else
    match st.users.find? (fun u => u.id = userId) with
    | some u => .ok (u.is_admin = 1)
    | none => .ok false

/-- The `register` operation: throw on a non-auth DO; insert a user row
(the unique constraint on `email` raises on a duplicate, which `register`
does not catch) and return the `User` value.  `userId` and `now` stand for
`crypto.randomUUID()` and `Date.now()`; `salt` for the random salt. -/
def register (kdf : String → List Nat → List Nat) (st : MailboxState)
    (userId : String) (now : Nat) (salt : List Nat)
    (email password : String) (isFirstUser : Bool) :
    Except String (User × MailboxState) :=
  if !st.isAuthDO then .error ("Not an auth DO")
  else
    let ph := hashPassword kdf password salt
    if st.users.any (fun u => u.email = email || u.id = userId) then
      .error ("UNIQUE constraint failed: users.email")
    else
      let row : UserRow := ⟨userId, email, ph, if isFirstUser then 1 else 0, now, now⟩
      .ok (⟨userId, email, isFirstUser, now, now⟩, { st with users := st.users ++ [row] })

/-- The `login` operation: throw on a non-auth DO; look the user up by
email, verify the password, and on success insert a session row expiring
30 days from `now` and return the `Session`.  Any credential mismatch
returns `null` with the state untouched. -/
def login (kdf : String → List Nat → List Nat) (st : MailboxState)
    (sessionId : String) (now : Nat) (email password : String) :
    Except String (Option Session × MailboxState) :=
  if !st.isAuthDO then .error ("Not an auth DO")
  else
    match st.users.find? (fun u => u.email = email) with
    | none => .ok (none, st)
    | some user =>
      if !(verifyPassword kdf password user.password_hash) then .ok (none, st)
      else
        let expiresAt := now + 30 * 24 * 60 * 60 * 1000
        let row : SessionRow := ⟨sessionId, user.id, expiresAt, now⟩
        .ok (some ⟨sessionId, user.id, user.email, user.is_admin = 1, expiresAt⟩,
          { st with sessions := st.sessions ++ [row] })

/-- The `validateSession` operation: throw on a non-auth DO; `null` when
the token has no row; when the row is expired (`expires_at < now`) delete
it and return `null`; otherwise join to the owning user (live admin flag)
and return the `Session`, or `null` when the user row is gone. -/
def validateSession (st : MailboxState) (now : Nat) (sessionId : String) :
    Except String (Option Session × MailboxState) :=
  if !st.isAuthDO then .error ("Not an auth DO")
  else
    match st.sessions.find? (fun s => s.id = sessionId) with
    | none => .ok (none, st)
    | some session =>
      if session.expires_at < now then
        .ok (none, { st with sessions := st.sessions.filter (fun s => s.id ≠ sessionId) })
      else
        match st.users.find? (fun u => u.id = session.user_id) with
        | none => .ok (none, st)
        | some user =>
          .ok (some ⟨session.id, session.user_id, user.email, user.is_admin = 1,
            session.expires_at⟩, st)

/-- The `logout` operation: throw on a non-auth DO; unconditionally delete
the session row and return `true`. -/
def logout (st : MailboxState) (sessionId : String) :
    Except String (Bool × MailboxState) :=
  if !st.isAuthDO then .error ("Not an auth DO")
  else .ok (true, { st with sessions := st.sessions.filter (fun s => s.id ≠ sessionId) })

/-- The `getUsers` operation: throw on a non-auth DO; list every user row. -/
def getUsers (st : MailboxState) : Except String (List User) :=
  if !st.isAuthDO then .error ("Not an auth DO")
  else .ok (st.users.map (fun u => ⟨u.id, u.email, u.is_admin = 1, u.created_at, u.updated_at⟩))

/-- The `getUserByEmail` operation: throw on a non-auth DO; first user row
with the given email, or `null`. -/
def getUserByEmail (st : MailboxState) (email : String) : Except String (Option User) :=
  if !st.isAuthDO then .error ("Not an auth DO")
  else
    match st.users.find? (fun u => u.email = email) with
    | none => .ok none
    | some u => .ok (some ⟨u.id, u.email, u.is_admin = 1, u.created_at, u.updated_at⟩)

/-- The `updateUserPassword` operation: throw on a non-auth DO; rehash and
update the matching row's `password_hash` and `updated_at`. -/
def updateUserPassword (kdf : String → List Nat → List Nat) (st : MailboxState)
    (now : Nat) (salt : List Nat) (userId newPassword : String) :
    Except String MailboxState :=
  if !st.isAuthDO then .error ("Not an auth DO")
  else
    let ph := hashPassword kdf newPassword salt
    .ok { st with users := st.users.map (fun u =>
      if u.id = userId then { u with password_hash := ph, updated_at := now } else u) }

/-- The `updateUserAdminStatus` operation: throw on a non-auth DO; update
the matching row's `is_admin` and `updated_at`. -/
def updateUserAdminStatus (st : MailboxState) (now : Nat) (userId : String)
    (isAdminFlag : Bool) : Except String MailboxState :=
  if !st.isAuthDO then .error ("Not an auth DO")
  else
    .ok { st with users := st.users.map (fun u =>
      if u.id = userId then
        { u with is_admin := if isAdminFlag then 1 else 0, updated_at := now } else u) }

/-- The `grantMailboxAccess` operation: throw on a non-auth DO; insert a
`user_mailboxes` row. -/
def grantMailboxAccess (st : MailboxState) (userId mailboxId role : String) :
    Except String MailboxState :=
  if !st.isAuthDO then .error ("Not an auth DO")
  else .ok { st with user_mailboxes := st.user_mailboxes ++ [⟨userId, mailboxId, role⟩] }

/-- The `revokeMailboxAccess` operation: throw on a non-auth DO; delete the
rows matching (user, mailbox). -/
def revokeMailboxAccess (st : MailboxState) (userId mailboxId : String) :
    Except String MailboxState :=
  if !st.isAuthDO then .error ("Not an auth DO")
  else .ok { st with user_mailboxes := st.user_mailboxes.filter (fun g =>
    !(g.user_id = userId && g.mailbox_id = mailboxId)) }

/-- The `getUserMailboxes` operation: throw on a non-auth DO; list the
(mailbox, role) pairs granted to the user. -/
def getUserMailboxes (st : MailboxState) (userId : String) :
    Except String (List (String × String)) :=
  if !st.isAuthDO then .error ("Not an auth DO")
  else .ok ((st.user_mailboxes.filter (fun g => g.user_id = userId)).map
    (fun g => (g.mailbox_id, g.role)))

/-! ### Mailbox data operations of `MailboxDO` -/

/-- The options object of `getEmails`, with every field optional exactly as
in the `GetEmailsOptions` interface; the TypeScript union type on
`sortDirection` is compile-time only, so both sort fields are plain
strings at runtime. -/
structure GetEmailsOptions where
  folder : Option String := none
  page : Option Nat := none
  limit : Option Nat := none
  sortColumn : Option String := none
  sortDirection : Option String := none
deriving DecidableEq

/-- The query the `getEmails` builder chain hands to the storage engine:
an optional folder filter, the raw `ORDER BY` clause string, and
`LIMIT`/`OFFSET` values. -/
structure EmailsQuery where
  folder : Option String
  orderBy : String
  limit : Nat
  offset : Nat
deriving DecidableEq

/-- The query-construction half of `getEmails`: destructure the options
with defaults `page = 1`, `limit = 25`, `sortColumn = "date"`,
`sortDirection = "DESC"`; interpolate the sort pair into the ordering
clause unchecked; compute `offset = (page - 1) * limit`. -/
def buildEmailsQuery (opts : GetEmailsOptions) : EmailsQuery :=
  let page := opts.page.getD 1
  let limit := opts.limit.getD 25
  let sortColumn := opts.sortColumn.getD ("date")
  let sortDirection := opts.sortDirection.getD ("DESC")
  { folder := opts.folder
    orderBy := sortColumn ++ " " ++ sortDirection
    limit := limit
    offset := (page - 1) * limit }

/-- The email shape `getEmails` returns: the selected field list (no
`body`, no `folder_id`) with `read`/`starred` coerced to booleans by `!!`. -/
structure EmailOut where
  id : String
  subject : String
  sender : String
  recipient : String
  date : String
  read : Bool
  starred : Bool
  in_reply_to : Option String
  email_references : Option String
  thread_id : Option String
deriving DecidableEq

/-- Projection of an email row to the listed output shape. -/
def emailToOut (e : EmailRow) : EmailOut :=
  ⟨e.id, e.subject, e.sender, e.recipient, e.date, e.read ≠ 0, e.starred ≠ 0,
    e.in_reply_to, e.email_references, e.thread_id⟩

/-- Splitting a character list at a separator character; used to read the
`ORDER BY` clause back apart in the storage model. -/
def splitSep (sep : Char) : List Char → List (List Char)
  | [] => [[]]
  | c :: rest =>
    match splitSep sep rest with
    | [] => [[c]]
    | p :: ps => if c = sep then [] :: p :: ps else (c :: p) :: ps

/-- Sort key of an email row for a given column name, modelling the
storage engine's `ORDER BY` on the real columns of the `emails` table
(the `date` column is the default). -/
def emailSortKey (col : String) (e : EmailRow) : String :=
  if col = "id" then e.id
  else if col = "subject" then e.subject
  else if col = "sender" then e.sender
  else if col = "recipient" then e.recipient
  else e.date

/-- Storage-engine model of the `ORDER BY` clause: parse it back into a
column and a direction and sort accordingly (a clause that is not a
two-word pair is not a well-formed query; the model leaves the rows as
they are). -/
def orderEmails (clause : String) (rows : List EmailRow) : List EmailRow :=
  match (splitSep ' ' clause.data).map String.mk with
  | [col, dir] =>
    if dir = "ASC" then
      rows.mergeSort (fun a b => emailSortKey col a ≤ emailSortKey col b)
    else
      rows.mergeSort (fun a b => emailSortKey col b ≤ emailSortKey col a)
  | _ => rows

/-- The folder filter of `getEmails`/`searchEmails`: the sub-select picks
the first folder whose `name` or `id` equals the given key; when none
matches, the `folder_id = (empty sub-select)` comparison matches no row. -/
def filterByFolder (st : MailboxState) (folder : Option String) : List EmailRow :=
  match folder with
  | none => st.emails
  | some f =>
    match st.folders.find? (fun fo => fo.name = f || fo.id = f) with
    | some fo => st.emails.filter (fun e => e.folder_id = fo.id)
    | none => []

/-- Storage-engine model of the built emails query: filter, order by the
clause, then apply `OFFSET`/`LIMIT`, projecting to the selected fields. -/
def runEmailsQuery (st : MailboxState) (q : EmailsQuery) : List EmailOut :=
  let rows := filterByFolder st q.folder
  let sorted := orderEmails q.orderBy rows
  ((sorted.drop q.offset).take q.limit).map emailToOut

/-- The `getEmails` operation: build the query from the options and run it. -/
def getEmails (st : MailboxState) (opts : GetEmailsOptions) : List EmailOut :=
  runEmailsQuery st (buildEmailsQuery opts)

/-- The `deleteEmail` operation: read the `(id, filename)` pairs of the
attachment rows referencing the email, delete the email row — the
attachment rows go with it through the schema's `ON DELETE CASCADE`
foreign key (the emails/attachments schema lives in the migrations
module; the data model states that deleting an email cascades to its
attachments) — and return the pairs that were read before the delete. -/
def deleteEmail (st : MailboxState) (id : String) :
    List (String × String) × MailboxState :=
  let rows := st.attachments.filter (fun a => a.email_id = id)
  (rows.map (fun a => (a.id, a.filename)),
    { st with
      emails := st.emails.filter (fun e => e.id ≠ id)
      attachments := st.attachments.filter (fun a => a.email_id ≠ id) })

/-- The `moveEmail` operation: `false` when no folder row has the given
id; otherwise update the email's `folder_id` and return `true`. -/
def moveEmail (st : MailboxState) (id folderId : String) : Bool × MailboxState :=
  match st.folders.find? (fun fo => fo.id = folderId) with
  | none => (false, st)
  | some _ =>
    (true, { st with emails := st.emails.map (fun e =>
      if e.id = id then { e with folder_id := folderId } else e) })

/-- The folder value `createFolder` returns on success. -/
structure FolderOut where
  id : String
  name : String
  unreadCount : Nat
deriving DecidableEq

/-- Whether `pat` occurs as a contiguous run inside `l`; models
`String.prototype.includes`. -/
def leadsWith : List Char → List Char → Bool
  | [], _ => true
  | _ :: _, [] => false
  | p :: ps, c :: cs => p = c && leadsWith ps cs

/-- Contiguous-occurrence test used to model `e.message.includes(...)`. -/
def containsRun (l pat : List Char) : Bool :=
  match l with
  | [] => pat.isEmpty
  | _ :: rest => leadsWith pat l || containsRun rest pat

/-- The insert behind `createFolder`: the `folders` schema (in the
migrations module; the data model declares both the slug `id` and `name`
unique) raises a `UNIQUE constraint failed` error when either collides,
and otherwise inserts the row; a folder created this way is deletable. -/
def insertFolder (st : MailboxState) (id name : String) :
    Except String (FolderRow × MailboxState) :=
  if st.folders.any (fun f => f.id = id) then
    .error ("UNIQUE constraint failed: folders.id")
  else if st.folders.any (fun f => f.name = name) then
    .error ("UNIQUE constraint failed: folders.name")
  else
    let row : FolderRow := ⟨id, name, 1⟩
    .ok (row, { st with folders := st.folders ++ [row] })

/-- The `createFolder` operation: try the insert; when it raises an error
whose message contains `UNIQUE constraint failed`, return `null`;
re-raise any other error; on success return the new folder with
`unreadCount` 0. -/
def createFolder (st : MailboxState) (id name : String) :
    Except String (Option FolderOut × MailboxState) :=
  match insertFolder st id name with
  | .ok (row, st') => .ok (some ⟨row.id, row.name, 0⟩, st')
  | .error msg =>
    if containsRun msg.data ("UNIQUE constraint failed").data then .ok (none, st)
    else .error msg

end MailboxDO

/-! ### Concrete instances used to exercise the theorems -/

/-- A concrete deterministic stand-in for the PBKDF2 primitive. -/
def exKdf : String → List Nat → List Nat := fun _ _ => List.replicate 32 9

/-- A concrete 16-byte salt. -/
def exSalt : List Nat := List.replicate 16 5

/-- A concrete user row. -/
def exUser : UserRow := ⟨"u1", "alice@example.com", "h", 1, 0, 0⟩

/-- A concrete session row expiring at time 100. -/
def exSessionRow : SessionRow := ⟨"tok", "u1", 100, 0⟩

/-- A concrete AUTH-store state with one user and one session. -/
def exAuthState : MailboxState := ⟨true, [exUser], [exSessionRow], [], [], [], []⟩

/-- A concrete AUTH-store state with no rows at all. -/
def exEmptyAuth : MailboxState := ⟨true, [], [], [], [], [], []⟩

/-- A concrete non-AUTH (per-mailbox) store state. -/
def exMailboxState : MailboxState := ⟨false, [], [], [], [], [], []⟩

/-- The AUTH-store state `ensureDefaultAdmins` produces from `exEmptyAuth`
with ids `i1`, `i2` at time 0. -/
def exSeededState : MailboxState :=
  { exEmptyAuth with users :=
    [⟨"i1", "admin@email.230406.xyz", hashPassword exKdf ("admin") exSalt, 1, 0, 0⟩,
     ⟨"i2", "admin@230406.xyz", hashPassword exKdf ("admin") exSalt, 1, 0, 0⟩] }

/-- Two concrete folders. -/
def exFolderF : FolderRow := ⟨"f", "Work", 0⟩

/-- Second concrete folder. -/
def exFolderG : FolderRow := ⟨"g", "Archive", 1⟩

/-- A concrete email row sitting in folder `f`. -/
def exEmail1 : EmailRow :=
  ⟨"e1", "hello", "a@x.com", "b@x.com", "2024-01-01", "body1", 0, 0, "f", none, none, none⟩

/-- Second concrete email row. -/
def exEmail2 : EmailRow :=
  ⟨"e2", "re", "b@x.com", "a@x.com", "2024-01-02", "body2", 1, 0, "f", none, none, none⟩

/-- Third concrete email row. -/
def exEmail3 : EmailRow :=
  ⟨"e3", "fwd", "c@x.com", "a@x.com", "2024-01-03", "body3", 0, 1, "g", none, none, none⟩

/-- A concrete attachment row on email `e1`. -/
def exAttachment1 : AttachmentRow :=
  ⟨"att1", "e1", "a.pdf", "application/pdf", 10, none, some ("attachment")⟩

/-- Second concrete attachment row, on email `e2`. -/
def exAttachment2 : AttachmentRow :=
  ⟨"att2", "e2", "b.png", "image/png", 20, some ("cid2"), some ("inline")⟩

/-- A concrete mailbox store with two folders, three emails and two
attachments. -/
def exMboxFull : MailboxState :=
  ⟨false, [], [], [], [exFolderF, exFolderG], [exEmail1, exEmail2, exEmail3],
    [exAttachment1, exAttachment2]⟩

/-- The state `moveEmail exMboxFull "e1" "g"` produces. -/
def exMovedState : MailboxState :=
  { exMboxFull with emails := [{ exEmail1 with folder_id := "g" }, exEmail2, exEmail3] }

/-! ### Helper lemmas: base64 and hash-format round trips -/

theorem b64Alphabet_length : b64Alphabet.length = 64 := by decide

set_option maxHeartbeats 1000000 in
theorem b64Index_b64Char : ∀ i : Fin 64, b64Index (b64Char i.val) = i.val := by decide

theorem b64Char_ne_eq : ∀ i : Fin 64, b64Char i.val ≠ '=' := by decide

theorem b64Char_ne_colon_small : ∀ i : Fin 64, b64Char i.val ≠ ':' := by decide

theorem b64Char_ne_colon (i : Nat) : b64Char i ≠ ':' := by
  by_cases h : i < 64
  · exact b64Char_ne_colon_small ⟨i, h⟩
  · unfold b64Char
    rw [List.getD_eq_default]
    · decide
    · rw [b64Alphabet_length]; omega

theorem atob_btoa : ∀ (bs : List Nat), (∀ b ∈ bs, b < 256) → atobChars (btoaChars bs) = bs
  | [], _ => rfl
  | [a], h => by
    have ha : a < 256 := h a (by simp)
    have n1 : b64Char (a / 4) ≠ '=' := b64Char_ne_eq ⟨a / 4, by omega⟩
    have n2 : b64Char (a % 4 * 16) ≠ '=' := b64Char_ne_eq ⟨a % 4 * 16, by omega⟩
    have e1 : b64Index (b64Char (a / 4)) = a / 4 := b64Index_b64Char ⟨a / 4, by omega⟩
    have e2 : b64Index (b64Char (a % 4 * 16)) = a % 4 * 16 :=
      b64Index_b64Char ⟨a % 4 * 16, by omega⟩
    simp [atobChars, btoaChars, atobCore, n1, n2, e1, e2]
    omega
  | [a, b], h => by
    have ha : a < 256 := h a (by simp)
    have hb : b < 256 := h b (by simp)
    have n1 : b64Char (a / 4) ≠ '=' := b64Char_ne_eq ⟨a / 4, by omega⟩
    have n2 : b64Char (a % 4 * 16 + b / 16) ≠ '=' := b64Char_ne_eq ⟨_, by omega⟩
    have n3 : b64Char (b % 16 * 4) ≠ '=' := b64Char_ne_eq ⟨_, by omega⟩
    have e1 : b64Index (b64Char (a / 4)) = a / 4 := b64Index_b64Char ⟨_, by omega⟩
    have e2 : b64Index (b64Char (a % 4 * 16 + b / 16)) = a % 4 * 16 + b / 16 :=
      b64Index_b64Char ⟨_, by omega⟩
    have e3 : b64Index (b64Char (b % 16 * 4)) = b % 16 * 4 := b64Index_b64Char ⟨_, by omega⟩
    simp [atobChars, btoaChars, atobCore, n1, n2, n3, e1, e2, e3]
    constructor
    · omega
    · omega
  | a :: b :: c :: rest, h => by
    have ha : a < 256 := h a (by simp)
    have hb : b < 256 := h b (by simp)
    have hc : c < 256 := h c (by simp)
    have IH : atobChars (btoaChars rest) = rest :=
      atob_btoa rest (fun x hx => h x (by simp [hx]))
    have n1 : b64Char (a / 4) ≠ '=' := b64Char_ne_eq ⟨_, by omega⟩
    have n2 : b64Char (a % 4 * 16 + b / 16) ≠ '=' := b64Char_ne_eq ⟨_, by omega⟩
    have n3 : b64Char (b % 16 * 4 + c / 64) ≠ '=' := b64Char_ne_eq ⟨_, by omega⟩
    have n4 : b64Char (c % 64) ≠ '=' := b64Char_ne_eq ⟨_, by omega⟩
    have e1 : b64Index (b64Char (a / 4)) = a / 4 := b64Index_b64Char ⟨_, by omega⟩
    have e2 : b64Index (b64Char (a % 4 * 16 + b / 16)) = a % 4 * 16 + b / 16 :=
      b64Index_b64Char ⟨_, by omega⟩
    have e3 : b64Index (b64Char (b % 16 * 4 + c / 64)) = b % 16 * 4 + c / 64 :=
      b64Index_b64Char ⟨_, by omega⟩
    have e4 : b64Index (b64Char (c % 64)) = c % 64 := b64Index_b64Char ⟨_, by omega⟩
    simp only [atobChars, btoaChars] at IH ⊢
    rw [List.filter_cons_of_pos, List.filter_cons_of_pos, List.filter_cons_of_pos,
      List.filter_cons_of_pos]
    · simp only [atobCore, e1, e2, e3, e4, IH]
      refine List.cons_eq_cons.mpr ⟨by omega, ?_⟩
      refine List.cons_eq_cons.mpr ⟨by omega, ?_⟩
      exact List.cons_eq_cons.mpr ⟨by omega, rfl⟩
    · simp [n4]
    · simp [n3]
    · simp [n2]
    · simp [n1]

theorem colon_not_mem_btoa : ∀ bs : List Nat, ':' ∉ btoaChars bs
  | [] => by simp [btoaChars]
  | [a] => by
    simp only [btoaChars, List.mem_cons, List.not_mem_nil]
    push_neg
    exact ⟨(b64Char_ne_colon _).symm, (b64Char_ne_colon _).symm, by decide, by decide, not_false⟩
  | [a, b] => by
    simp only [btoaChars, List.mem_cons, List.not_mem_nil]
    push_neg
    exact ⟨(b64Char_ne_colon _).symm, (b64Char_ne_colon _).symm, (b64Char_ne_colon _).symm,
      by decide, not_false⟩
  | a :: b :: c :: rest => by
    have IH := colon_not_mem_btoa rest
    simp only [btoaChars, List.mem_cons]
    push_neg
    exact ⟨(b64Char_ne_colon _).symm, (b64Char_ne_colon _).symm, (b64Char_ne_colon _).symm,
      (b64Char_ne_colon _).symm, IH⟩

theorem splitColon_ne_nil (l : List Char) : splitColon l ≠ [] := by
  match l with
  | [] => simp [splitColon]
  | c :: rest =>
    simp only [splitColon]
    match splitColon rest with
    | [] => simp
    | p :: ps =>
      by_cases h : c = ':' <;> simp [h]

theorem splitColon_of_not_mem (m : List Char) (h : ':' ∉ m) : splitColon m = [m] := by
  induction m with
  | nil => rfl
  | cons c rest ih =>
    have hc : c ≠ ':' := fun he => h (he ▸ List.mem_cons_self c rest)
    have hr : ':' ∉ rest := fun hm => h (List.mem_cons_of_mem c hm)
    simp only [splitColon, ih hr, hc, if_false]

theorem splitColon_append (l m : List Char) (h : ':' ∉ l) :
    splitColon (l ++ ':' :: m) = l :: splitColon m := by
  induction l with
  | nil =>
    simp only [List.nil_append, splitColon]
    match hs : splitColon m with
    | [] => exact absurd hs (splitColon_ne_nil m)
    | p :: ps => simp
  | cons c rest ih =>
    have hc : c ≠ ':' := fun he => h (he ▸ List.mem_cons_self c rest)
    have hr : ':' ∉ rest := fun hm => h (List.mem_cons_of_mem c hm)
    simp only [List.cons_append, splitColon, List.append_eq, ih hr, hc, if_false]

theorem btoaChars_ne_nil : ∀ bs : List Nat, bs ≠ [] → btoaChars bs ≠ []
  | [], h => absurd rfl h
  | [_], _ => by simp [btoaChars]
  | [_, _], _ => by simp [btoaChars]
  | _ :: _ :: _ :: _, _ => by simp [btoaChars]

theorem verify_hash_roundtrip (kdf : String → List Nat → List Nat) (password : String)
    (salt : List Nat) (hne : salt ≠ []) (hbytes : ∀ b ∈ salt, b < 256)
    (hkdf : kdf password salt ≠ []) :
    verifyPassword kdf password (hashPassword kdf password salt) = true := by
  unfold verifyPassword hashPassword
  have hdata : (String.mk (btoaChars salt ++ ':' :: btoaChars (kdf password salt))).data
      = btoaChars salt ++ ':' :: btoaChars (kdf password salt) := rfl
  rw [hdata, splitColon_append _ _ (colon_not_mem_btoa salt),
    splitColon_of_not_mem _ (colon_not_mem_btoa (kdf password salt))]
  have h1 : (btoaChars salt).isEmpty = false := by
    simp [List.isEmpty_iff, btoaChars_ne_nil salt hne]
  have h2 : (btoaChars (kdf password salt)).isEmpty = false := by
    simp [List.isEmpty_iff, btoaChars_ne_nil _ hkdf]
  simp only [h1, h2, Bool.or_self, if_false, atob_btoa salt hbytes]
  simp

/-! ### Helper lemmas about the store operations -/

theorem validateSession_not_found (st : MailboxState) (now : Nat) (token : String)
    (hauth : st.isAuthDO = true)
    (hfind : st.sessions.find? (fun s => s.id = token) = none) :
    MailboxDO.validateSession st now token = .ok (none, st) := by
  simp [MailboxDO.validateSession, hauth, hfind]

theorem orderEmails_perm (clause : String) (rows : List EmailRow) :
    List.Perm (MailboxDO.orderEmails clause rows) rows := by
  unfold MailboxDO.orderEmails
  split
  · split
    · exact List.mergeSort_perm ..
    · exact List.mergeSort_perm ..
  · exact List.Perm.refl _

theorem getEmails_subset (st : MailboxState) (opts : MailboxDO.GetEmailsOptions)
    (o : MailboxDO.EmailOut) (h : o ∈ MailboxDO.getEmails st opts) :
    ∃ r ∈ MailboxDO.filterByFolder st opts.folder, o = MailboxDO.emailToOut r := by
  unfold MailboxDO.getEmails MailboxDO.runEmailsQuery at h
  obtain ⟨r, hr, rfl⟩ := List.mem_map.mp h
  exact ⟨r, ((orderEmails_perm _ _).mem_iff).mp
    (List.mem_of_mem_drop (List.mem_of_mem_take hr)), rfl⟩

/-! ### Claim theorems -/

open MailboxDO

/-- Claim C1, counterexample: at the boundary instant `now = expiresAt` the
claim says `validateSession` returns null (since `now < expiresAt` fails),
but the code's expiry test is `expires_at < now`, so the session is still
accepted: with a session expiring at 100, validation at time 100 returns a
non-null `Session` and leaves the row in place. -/
theorem validateSession_boundary_counterexample :
    (¬ (100 < exSessionRow.expires_at))
    ∧ validateSession exAuthState 100 ("tok")
        = .ok (some ⟨"tok", "u1", "alice@example.com", true, 100⟩, exAuthState) := by
  constructor
  · decide
  · rfl

/-- Claim C1, amended: for a stored session whose owning user row exists,
`validateSession` returns a non-null `Session` exactly while
`now ≤ expiresAt`; when it finds the session expired (`expiresAt < now`) it
deletes the session row and returns null, and keeps returning null at every
later time. -/
theorem validateSession_window (st : MailboxState) (now : Nat) (token : String)
    (sess : SessionRow) (user : UserRow)
    (hauth : st.isAuthDO = true)
    (hs : st.sessions.find? (fun s => s.id = token) = some sess)
    (hu : st.users.find? (fun us => us.id = sess.user_id) = some user) :
    (now ≤ sess.expires_at →
      validateSession st now token =
        .ok (some ⟨sess.id, sess.user_id, user.email, user.is_admin = 1, sess.expires_at⟩, st))
    ∧ (sess.expires_at < now →
        validateSession st now token =
          .ok (none, { st with sessions := st.sessions.filter (fun s => s.id ≠ token) })
        ∧ (∀ later : Nat,
            validateSession { st with sessions := st.sessions.filter (fun s => s.id ≠ token) }
              later token
            = .ok (none, { st with sessions := st.sessions.filter (fun s => s.id ≠ token) }))) := by
  constructor
  · intro hle
    have hlt : ¬ (sess.expires_at < now) := by omega
    simp [validateSession, hauth, hs, hlt, hu]
  · intro hgt
    constructor
    · simp [validateSession, hauth, hs, hgt]
    · intro later
      have hnone : (st.sessions.filter (fun s => s.id ≠ token)).find?
          (fun s => s.id = token) = none := by
        rw [List.find?_eq_none]
        intro x hx
        rw [List.mem_filter] at hx
        simpa using hx.2
      exact validateSession_not_found _ later token hauth hnone

/-- Claim C1, witness: validating the concrete unexpired session at time 50
returns the joined session value. -/
theorem validateSession_window_witness :
    validateSession exAuthState 50 ("tok")
      = .ok (some ⟨"tok", "u1", "alice@example.com", true, 100⟩, exAuthState) := by
  have h := (validateSession_window exAuthState 50 ("tok") exSessionRow exUser rfl
    (by decide) (by decide)).1 (by decide)
  exact h

/-- Claim C2: on the AUTH store, `login` returns `null` without raising on
any credential mismatch — unknown email and wrong password produce the
identical result `(null, state unchanged)` — and on success the returned
session's `expiresAt` is exactly `now + 30 * 24 * 60 * 60 * 1000`. -/
theorem login_mismatch_indistinguishable (kdf : String → List Nat → List Nat)
    (st : MailboxState) (sid : String) (now : Nat) (email password : String)
    (hauth : st.isAuthDO = true) :
    (st.users.find? (fun us => us.email = email) = none →
      login kdf st sid now email password = .ok (none, st))
    ∧ (∀ u2, st.users.find? (fun us => us.email = email) = some u2 →
        verifyPassword kdf password u2.password_hash = false →
        login kdf st sid now email password = .ok (none, st))
    ∧ (∃ r, login kdf st sid now email password = .ok r)
    ∧ (∀ r s, login kdf st sid now email password = .ok r → r.fst = some s →
        s.expiresAt = now + 30 * 24 * 60 * 60 * 1000) := by
  cases hf : st.users.find? (fun us => us.email = email) with
  | none =>
    have hl : login kdf st sid now email password = .ok (none, st) := by
      simp [login, hauth, hf]
    refine ⟨fun _ => hl, fun u2 hu2 => absurd hu2 (by simp),
      ⟨(none, st), hl⟩, fun r s hr hs => ?_⟩
    rw [hl, Except.ok.injEq] at hr
    rw [← hr] at hs
    simp at hs
  | some u =>
    by_cases hv : verifyPassword kdf password u.password_hash = true
    · have hl : login kdf st sid now email password =
        .ok (some ⟨sid, u.id, u.email, u.is_admin = 1, now + 30 * 24 * 60 * 60 * 1000⟩,
          { st with sessions :=
            st.sessions ++ [⟨sid, u.id, now + 30 * 24 * 60 * 60 * 1000, now⟩] }) := by
        simp [login, hauth, hf, hv]
      refine ⟨fun hc => absurd hc (by simp),
        fun u2 hu2 hbad => ?_, ⟨_, hl⟩, fun r s hr hs => ?_⟩
      · rw [Option.some.injEq] at hu2
        rw [← hu2, hv] at hbad
        exact Bool.noConfusion hbad
      · rw [hl, Except.ok.injEq] at hr
        rw [← hr] at hs
        simp only [Option.some.injEq] at hs
        rw [← hs]
    · have hv2 : verifyPassword kdf password u.password_hash = false := by
        simpa using hv
      have hl : login kdf st sid now email password = .ok (none, st) := by
        simp [login, hauth, hf, hv2]
      refine ⟨fun hc => absurd hc (by simp),
        fun _ _ _ => hl, ⟨_, hl⟩, fun r s hr hs => ?_⟩
      rw [hl, Except.ok.injEq] at hr
      rw [← hr] at hs
      simp at hs

/-- Claim C2, witness: logging in with an email that has no user row
returns null and leaves the concrete state unchanged. -/
theorem login_mismatch_witness :
    login exKdf exAuthState ("s1") 0 ("nobody@x.com") ("pw") = .ok (none, exAuthState) :=
  (login_mismatch_indistinguishable exKdf exAuthState ("s1") 0 ("nobody@x.com") ("pw")
    rfl).1 (by decide)

/-- Claim C3: verifying a password against the stored hash produced for it
succeeds — the hash is `base64(salt) ++ ":" ++ base64(kdf(password, salt))`
for the 16-byte salt, and verification re-derives with the stored salt and
compares exactly (`kdf` abstracts the PBKDF2/SHA-256/100000-iteration
platform primitive, whose output is nonempty); consequently a registration
followed by a login with the same fresh credentials succeeds. -/
theorem password_hash_roundtrip (kdf : String → List Nat → List Nat) (password : String)
    (salt : List Nat) (hlen : salt.length = 16) (hbytes : ∀ b ∈ salt, b < 256)
    (hkdf : kdf password salt ≠ []) :
    verifyPassword kdf password (hashPassword kdf password salt) = true
    ∧ (∀ (st : MailboxState) (uid sid : String) (now now2 : Nat) (email : String)
        (u : User) (st2 : MailboxState),
        st.isAuthDO = true →
        register kdf st uid now salt email password false = .ok (u, st2) →
        st.users.find? (fun us => us.email = email) = none →
        ∃ s st3, login kdf st2 sid now2 email password = .ok (some s, st3)
          ∧ s.expiresAt = now2 + 30 * 24 * 60 * 60 * 1000) := by
  have hne : salt ≠ [] := by
    intro h
    rw [h] at hlen
    simp at hlen
  have hv := verify_hash_roundtrip kdf password salt hne hbytes hkdf
  refine ⟨hv, ?_⟩
  intro st uid sid now now2 email u st2 hauth hreg hfresh
  unfold register at hreg
  rw [hauth] at hreg
  simp only [Bool.not_true, Bool.false_eq_true, if_false] at hreg
  split at hreg
  · exact absurd hreg (by simp)
  · rw [Except.ok.injEq, Prod.mk.injEq] at hreg
    obtain ⟨-, hst2⟩ := hreg
    unfold login
    rw [← hst2]
    simp only [hauth, Bool.not_true, Bool.false_eq_true, if_false]
    rw [List.find?_append, hfresh, Option.none_or]
    have hrow : List.find? (fun us => us.email = email)
        [(⟨uid, email, hashPassword kdf password salt, 0, now, now⟩ : UserRow)]
        = some ⟨uid, email, hashPassword kdf password salt, 0, now, now⟩ := by
      simp [List.find?]
    rw [hrow]
    simp only [hv, Bool.not_true, Bool.false_eq_true, if_false]
    exact ⟨_, _, rfl, rfl⟩

/-- Claim C3, witness: the round trip holds at a concrete password, the
concrete 16-byte salt and the concrete stand-in derivation function. -/
theorem password_hash_roundtrip_witness :
    verifyPassword exKdf ("password123") (hashPassword exKdf ("password123") exSalt) = true :=
  (password_hash_roundtrip exKdf ("password123") exSalt (by decide) (by decide) (by decide)).1

/-- Claim C4: on the AUTH store, `ensureDefaultAdmins` never raises, is a
no-op once any user row exists, and running it a second time changes
nothing and leaves the user emails duplicate-free. -/
theorem ensureDefaultAdmins_idempotent (kdf : String → List Nat → List Nat)
    (st : MailboxState) (now : Nat) (salt : List Nat) (id1 id2 : String)
    (now2 : Nat) (salt2 : List Nat) (id3 id4 : String)
    (hauth : st.isAuthDO = true)
    (hnodup : (st.users.map UserRow.email).Nodup) :
    (st.users ≠ [] → ensureDefaultAdmins kdf st now salt id1 id2 = .ok st)
    ∧ (∃ st2, ensureDefaultAdmins kdf st now salt id1 id2 = .ok st2)
    ∧ (∀ st2, ensureDefaultAdmins kdf st now salt id1 id2 = .ok st2 →
        (st2.users.map UserRow.email).Nodup
        ∧ ensureDefaultAdmins kdf st2 now2 salt2 id3 id4 = .ok st2) := by
  cases hus : st.users with
  | nil =>
    by_cases hid : id1 = id2
    · have hres : ensureDefaultAdmins kdf st now salt id1 id2 =
        .ok { st with users :=
          [⟨id1, "admin@email.230406.xyz", hashPassword kdf ("admin") salt, 1, now, now⟩] } := by
        simp [ensureDefaultAdmins, insertUserSwallowDup, hauth, hus, hid]
      refine ⟨fun hne => absurd rfl hne, ⟨_, hres⟩, fun st2 h2 => ?_⟩
      rw [hres, Except.ok.injEq] at h2
      subst h2
      constructor
      · simp
      · simp [ensureDefaultAdmins, hauth]
    · have hres : ensureDefaultAdmins kdf st now salt id1 id2 =
        .ok { st with users :=
          [⟨id1, "admin@email.230406.xyz", hashPassword kdf ("admin") salt, 1, now, now⟩,
           ⟨id2, "admin@230406.xyz", hashPassword kdf ("admin") salt, 1, now, now⟩] } := by
        simp [ensureDefaultAdmins, insertUserSwallowDup, hauth, hus, hid]
      refine ⟨fun hne => absurd rfl hne, ⟨_, hres⟩, fun st2 h2 => ?_⟩
      rw [hres, Except.ok.injEq] at h2
      subst h2
      constructor
      · simp
      · simp [ensureDefaultAdmins, hauth]
  | cons u rest =>
    have hres : ensureDefaultAdmins kdf st now salt id1 id2 = .ok st := by
      simp [ensureDefaultAdmins, hauth, hus]
    refine ⟨fun _ => hres, ⟨_, hres⟩, fun st2 h2 => ?_⟩
    rw [hres, Except.ok.injEq] at h2
    subst h2
    exact ⟨hnodup, by simp [ensureDefaultAdmins, hauth, hus]⟩

/-- Claim C4, witness: after seeding an empty AUTH store, the seeded state
has duplicate-free emails and a second run returns it unchanged. -/
theorem ensureDefaultAdmins_idempotent_witness :
    (exSeededState.users.map UserRow.email).Nodup
    ∧ ensureDefaultAdmins exKdf exSeededState 1 exSalt ("j1") ("j2") = .ok exSeededState := by
  have hres : ensureDefaultAdmins exKdf exEmptyAuth 0 exSalt ("i1") ("i2")
      = .ok exSeededState := rfl
  exact (ensureDefaultAdmins_idempotent exKdf exEmptyAuth 0 exSalt ("i1") ("i2")
    1 exSalt ("j1") ("j2") rfl (by decide)).2.2 exSeededState hres

/-- Claim C5: `deleteEmail` returns exactly the `(id, filename)` pairs of
the attachment rows that referenced the email at the time of the call, the
email row is removed, the removal cascades to those attachment rows, and
no other table of the store is touched (the store holds no blob data at
all — blob deletion is the caller's job, using the returned pairs). -/
theorem deleteEmail_cascade (st : MailboxState) (idArg : String) :
    ((deleteEmail st idArg).fst
      = (st.attachments.filter (fun a => a.email_id = idArg)).map (fun a => (a.id, a.filename)))
    ∧ (∀ e : EmailRow, e ∈ (deleteEmail st idArg).snd.emails ↔ (e ∈ st.emails ∧ e.id ≠ idArg))
    ∧ (∀ a : AttachmentRow,
        a ∈ (deleteEmail st idArg).snd.attachments ↔ (a ∈ st.attachments ∧ a.email_id ≠ idArg))
    ∧ (deleteEmail st idArg).snd.folders = st.folders
    ∧ (deleteEmail st idArg).snd.users = st.users
    ∧ (deleteEmail st idArg).snd.sessions = st.sessions
    ∧ (deleteEmail st idArg).snd.user_mailboxes = st.user_mailboxes := by
  refine ⟨rfl, fun e => ?_, fun a => ?_, rfl, rfl, rfl, rfl⟩
  · simp [deleteEmail, List.mem_filter]
  · simp [deleteEmail, List.mem_filter]

/-- Claim C6: `moveEmail` fails with `false` and leaves the store unchanged
when no folder row has the target id, and otherwise retags the email and
returns `true`; after a successful move, a listing filtered by any folder
other than the target excludes the moved email's id, and a first-page
listing filtered by the target folder (with the folder's rows fitting the
page) includes it. -/
theorem moveEmail_listing (st : MailboxState) (idArg folderId : String) :
    (st.folders.find? (fun fo => fo.id = folderId) = none →
      moveEmail st idArg folderId = (false, st))
    ∧ (∀ fG, st.folders.find? (fun fo => fo.id = folderId) = some fG →
        moveEmail st idArg folderId =
          (true, { st with emails := st.emails.map (fun e =>
            if e.id = idArg then { e with folder_id := folderId } else e) }))
    ∧ (∀ st2, moveEmail st idArg folderId = (true, st2) →
        (∀ kF fF opts, opts.folder = some kF →
          st2.folders.find? (fun fo => fo.name = kF || fo.id = kF) = some fF →
          fF.id ≠ folderId →
          idArg ∉ (getEmails st2 opts).map EmailOut.id)
        ∧ (∀ kG fG limit,
          st2.folders.find? (fun fo => fo.name = kG || fo.id = kG) = some fG →
          fG.id = folderId →
          (∃ e ∈ st.emails, e.id = idArg) →
          (st2.emails.filter (fun e => e.folder_id = folderId)).length ≤ limit →
          idArg ∈ (getEmails st2
            { folder := some kG, page := some 1, limit := some limit }).map EmailOut.id)) := by
  refine ⟨fun hnone => by simp [moveEmail, hnone], fun fG hsome => by simp [moveEmail, hsome],
    fun st2 hmv => ?_⟩
  have hst2 : st2 = { st with emails := st.emails.map (fun e =>
      if e.id = idArg then { e with folder_id := folderId } else e) } := by
    revert hmv
    unfold moveEmail
    cases hfind0 : st.folders.find? (fun fo => fo.id = folderId) with
    | none =>
      intro hmv
      rw [Prod.mk.injEq] at hmv
      exact absurd hmv.1 (by simp)
    | some fG0 =>
      intro hmv
      rw [Prod.mk.injEq] at hmv
      exact hmv.2.symm
  constructor
  · intro kF fF opts hopt hfind hneq hmem
    obtain ⟨o, ho, hoid⟩ := List.mem_map.mp hmem
    obtain ⟨r, hr, rfl⟩ := getEmails_subset st2 opts o ho
    rw [hopt] at hr
    simp only [filterByFolder, hfind] at hr
    obtain ⟨hrmem, hrfid⟩ := List.mem_filter.mp hr
    rw [hst2] at hrmem
    simp only [MailboxState.emails] at hrmem
    obtain ⟨e0, he0, hue⟩ := List.mem_map.mp hrmem
    simp only [decide_eq_true_eq] at hrfid
    by_cases h0 : e0.id = idArg
    · rw [if_pos h0] at hue
      rw [← hue] at hrfid
      exact hneq hrfid.symm
    · rw [if_neg h0] at hue
      rw [← hue] at hoid
      exact h0 hoid
  · intro kG fG limit hfind hfid hex hcount
    obtain ⟨e, hemem, heid⟩ := hex
    have hue : (if e.id = idArg then { e with folder_id := folderId } else e)
        = { e with folder_id := folderId } := by simp [heid]
    have hrmem : ({ e with folder_id := folderId } : EmailRow) ∈ st2.emails := by
      rw [hst2]
      exact hue ▸ List.mem_map_of_mem _ hemem
    have hfmem : ({ e with folder_id := folderId } : EmailRow)
        ∈ st2.emails.filter (fun x => x.folder_id = fG.id) := by
      refine List.mem_filter.mpr ⟨hrmem, ?_⟩
      simp [hfid]
    have hrows : filterByFolder st2 (some kG)
        = st2.emails.filter (fun x => x.folder_id = fG.id) := by
      simp only [filterByFolder, hfind]
    have hsmem : ({ e with folder_id := folderId } : EmailRow)
        ∈ orderEmails ("date" ++ " " ++ "DESC") (filterByFolder st2 (some kG)) := by
      rw [(orderEmails_perm _ _).mem_iff, hrows]
      exact hfmem
    have hslen : (orderEmails ("date" ++ " " ++ "DESC")
        (filterByFolder st2 (some kG))).length ≤ limit := by
      rw [(orderEmails_perm _ _).length_eq, hrows]
      have hpred : (fun (x : EmailRow) => decide (x.folder_id = fG.id))
          = (fun (x : EmailRow) => decide (x.folder_id = folderId)) := by
        funext x
        rw [hfid]
      rw [hpred]
      exact hcount
    have hoff : (1 - 1) * limit = 0 := Nat.zero_mul limit
    have hge : getEmails st2 { folder := some kG, page := some 1, limit := some limit }
        = (((orderEmails ("date" ++ " " ++ "DESC")
            (filterByFolder st2 (some kG))).drop ((1 - 1) * limit)).take limit).map
          emailToOut := rfl
    rw [hge, hoff, List.drop_zero, List.take_of_length_le hslen]
    exact List.mem_map.mpr ⟨emailToOut { e with folder_id := folderId },
      List.mem_map_of_mem _ hsmem, heid⟩

/-- Claim C6, witness: moving `e1` from folder `f` to folder `g` in the
concrete store makes the `f` listing exclude it and the `g` listing
include it. -/
theorem moveEmail_listing_witness :
    moveEmail exMboxFull ("e1") ("g") = (true, exMovedState)
    ∧ ("e1" ∉ (getEmails exMovedState
        { folder := some ("f"), page := some 1, limit := some 25 }).map EmailOut.id)
    ∧ ("e1" ∈ (getEmails exMovedState
        { folder := some ("g"), page := some 1, limit := some 25 }).map EmailOut.id) := by
  have hmv : moveEmail exMboxFull ("e1") ("g") = (true, exMovedState) := by decide
  have h := (moveEmail_listing exMboxFull ("e1") ("g")).2.2 exMovedState hmv
  refine ⟨hmv, h.1 ("f") exFolderF ⟨some ("f"), some 1, some 25, none, none⟩ rfl
      (by decide) (by decide),
    h.2 ("g") exFolderG 25 (by decide) (by decide)
      ⟨exEmail1, by decide, by decide⟩ (by decide)⟩

/-- Claim C7: `getEmails` paginates with `offset = (page - 1) * limit` and
defaults `page = 1`, `limit = 25`; on any store holding 3 emails, page 1
with limit 2 returns 2 rows, page 2 with limit 2 returns 1 row, and the
two pages together are a permutation of the whole mailbox, covering every
email exactly once. -/
theorem getEmails_pagination (st : MailboxState) (h3 : st.emails.length = 3) :
    buildEmailsQuery {} = ⟨none, "date DESC", 25, 0⟩
    ∧ (∀ page limit : Nat,
        (buildEmailsQuery { page := some page, limit := some limit }).offset
          = (page - 1) * limit)
    ∧ (getEmails st { page := some 1, limit := some 2 }).length = 2
    ∧ (getEmails st { page := some 2, limit := some 2 }).length = 1
    ∧ List.Perm
        (getEmails st { page := some 1, limit := some 2 }
          ++ getEmails st { page := some 2, limit := some 2 })
        (st.emails.map emailToOut) := by
  have hperm := orderEmails_perm ("date DESC") st.emails
  have hlen : (orderEmails ("date DESC") st.emails).length = 3 := hperm.length_eq.trans h3
  have hg1 : getEmails st { page := some 1, limit := some 2 }
      = ((orderEmails ("date DESC") st.emails).take 2).map emailToOut := rfl
  have hdt : ((orderEmails ("date DESC") st.emails).drop 2).take 2
      = (orderEmails ("date DESC") st.emails).drop 2 := by
    apply List.take_of_length_le
    rw [List.length_drop, hlen]
    omega
  have hg2 : getEmails st { page := some 2, limit := some 2 }
      = ((orderEmails ("date DESC") st.emails).drop 2).map emailToOut := by
    show (((orderEmails ("date DESC") st.emails).drop 2).take 2).map emailToOut = _
    rw [hdt]
  have hl1 : (getEmails st { page := some 1, limit := some 2 }).length = 2 := by
    rw [hg1, List.length_map, List.length_take, hlen]
    decide
  have hl2 : (getEmails st { page := some 2, limit := some 2 }).length = 1 := by
    rw [hg2, List.length_map, List.length_drop, hlen]
  refine ⟨rfl, fun page limit => rfl, hl1, hl2, ?_⟩
  rw [hg1, hg2, ← List.map_append, List.take_append_drop]
  exact hperm.map emailToOut

/-- Claim C7, witness: the two pages of the concrete 3-email store have
lengths 2 and 1. -/
theorem getEmails_pagination_witness :
    (getEmails exMboxFull { page := some 1, limit := some 2 }).length = 2
    ∧ (getEmails exMboxFull { page := some 2, limit := some 2 }).length = 1 := by
  have h := getEmails_pagination exMboxFull rfl
  exact ⟨h.2.2.1, h.2.2.2.1⟩

/-- Claim C8: `createFolder` returns `null` without raising whenever the
requested id or name collides with an existing folder row (the
`UNIQUE constraint failed` error is caught), so repeating a successful
`createFolder` with the same pair makes the second call return `null`. -/
theorem createFolder_collision (st : MailboxState) (idArg nameArg : String) :
    ((∃ f ∈ st.folders, f.id = idArg ∨ f.name = nameArg) →
      createFolder st idArg nameArg = .ok (none, st))
    ∧ ((∀ f ∈ st.folders, f.id ≠ idArg ∧ f.name ≠ nameArg) →
        createFolder st idArg nameArg =
          .ok (some ⟨idArg, nameArg, 0⟩,
            { st with folders := st.folders ++ [⟨idArg, nameArg, 1⟩] })
        ∧ createFolder { st with folders := st.folders ++ [⟨idArg, nameArg, 1⟩] } idArg nameArg
          = .ok (none, { st with folders := st.folders ++ [⟨idArg, nameArg, 1⟩] })) := by
  have hrun1 : containsRun ("UNIQUE constraint failed: folders.id").data
      ("UNIQUE constraint failed").data = true := by decide
  have hrun2 : containsRun ("UNIQUE constraint failed: folders.name").data
      ("UNIQUE constraint failed").data = true := by decide
  constructor
  · rintro ⟨f, hf, hcol⟩
    by_cases hid : st.folders.any (fun f2 => f2.id = idArg) = true
    · simp [createFolder, insertFolder, hid, hrun1]
    · have hname : st.folders.any (fun f2 => f2.name = nameArg) = true := by
        cases hcol with
        | inl h => exact absurd (List.any_eq_true.mpr ⟨f, hf, by simp [h]⟩) hid
        | inr h => exact List.any_eq_true.mpr ⟨f, hf, by simp [h]⟩
      have hid2 : st.folders.any (fun f2 => f2.id = idArg) = false := by
        simpa using hid
      simp [createFolder, insertFolder, hid2, hname, hrun2]
  · intro hall
    have hid : st.folders.any (fun f2 => f2.id = idArg) = false := by
      rw [List.any_eq_false]
      intro x hx
      simpa using (hall x hx).1
    have hname : st.folders.any (fun f2 => f2.name = nameArg) = false := by
      rw [List.any_eq_false]
      intro x hx
      simpa using (hall x hx).2
    constructor
    · simp [createFolder, insertFolder, hid, hname]
    · have h2 : (st.folders ++ [(⟨idArg, nameArg, 1⟩ : FolderRow)]).any
          (fun f2 => f2.id = idArg) = true :=
        List.any_eq_true.mpr ⟨⟨idArg, nameArg, 1⟩, by simp, by simp⟩
      simp [createFolder, insertFolder, h2, hrun1]

/-- Claim C8, witness: creating `test-folder` twice in the concrete empty
mailbox succeeds once and returns `null` the second time. -/
theorem createFolder_collision_witness :
    createFolder exMailboxState ("test-folder") ("Test Folder")
      = .ok (some ⟨"test-folder", "Test Folder", 0⟩,
        { exMailboxState with folders := [⟨"test-folder", "Test Folder", 1⟩] })
    ∧ createFolder { exMailboxState with folders := [⟨"test-folder", "Test Folder", 1⟩] }
        ("test-folder") ("Test Folder")
      = .ok (none, { exMailboxState with folders := [⟨"test-folder", "Test Folder", 1⟩] }) := by
  have h := (createFolder_collision exMailboxState ("test-folder") ("Test Folder")).2
    (by intro f hf; simp [exMailboxState] at hf)
  exact h

/-- Claim C9: the store layer interpolates any client-supplied sort column
and direction unchecked into the ordering clause of the query it builds —
the clause is exactly `sortColumn ++ " " ++ sortDirection` for every pair
of strings, with no allow-list and no rejection — and `getEmails` runs
exactly that query. -/
theorem getEmails_sort_passthrough (opts : GetEmailsOptions) (col dir : String)
    (h1 : opts.sortColumn = some col) (h2 : opts.sortDirection = some dir) :
    (buildEmailsQuery opts).orderBy = col ++ " " ++ dir
    ∧ ∀ st, getEmails st opts = runEmailsQuery st (buildEmailsQuery opts) := by
  constructor
  · simp [buildEmailsQuery, h1, h2]
  · intro st
    rfl

/-- Claim C9, witness: an injection-shaped column string passes through
into the ordering clause verbatim. -/
theorem getEmails_sort_passthrough_witness :
    (buildEmailsQuery ⟨none, none, none, some ("date; DROP TABLE emails; --"),
      some ("DESC")⟩).orderBy = ("date; DROP TABLE emails; --" ++ " " ++ "DESC") :=
  (getEmails_sort_passthrough _ _ _ rfl rfl).1

/-- Claim C10: on a store instance that is not the AUTH singleton,
`hasUsers` and `isAdmin` return `false` instead of raising, while every
other credential operation throws the error `Not an auth DO`. -/
theorem non_auth_guards (st : MailboxState) (h : st.isAuthDO = false)
    (kdf : String → List Nat → List Nat) (now : Nat) (salt : List Nat)
    (id1 id2 uid mid roleArg email password token : String) (flag : Bool) :
    hasUsers st = .ok false
    ∧ isAdmin st uid = .ok false
    ∧ register kdf st uid now salt email password flag = .error ("Not an auth DO")
    ∧ login kdf st id1 now email password = .error ("Not an auth DO")
    ∧ validateSession st now token = .error ("Not an auth DO")
    ∧ logout st token = .error ("Not an auth DO")
    ∧ ensureDefaultAdmins kdf st now salt id1 id2 = .error ("Not an auth DO")
    ∧ getUsers st = .error ("Not an auth DO")
    ∧ getUserByEmail st email = .error ("Not an auth DO")
    ∧ updateUserPassword kdf st now salt uid password = .error ("Not an auth DO")
    ∧ updateUserAdminStatus st now uid flag = .error ("Not an auth DO")
    ∧ grantMailboxAccess st uid mid roleArg = .error ("Not an auth DO")
    ∧ revokeMailboxAccess st uid mid = .error ("Not an auth DO")
    ∧ getUserMailboxes st uid = .error ("Not an auth DO") := by
  unfold hasUsers isAdmin register login validateSession logout ensureDefaultAdmins
    getUsers getUserByEmail updateUserPassword updateUserAdminStatus
    grantMailboxAccess revokeMailboxAccess getUserMailboxes
  simp [h]

/-- Claim C10, witness: the guards behave as stated on the concrete
per-mailbox (non-AUTH) store. -/
theorem non_auth_guards_witness :
    hasUsers exMailboxState = .ok false
    ∧ isAdmin exMailboxState ("u") = .ok false
    ∧ register exKdf exMailboxState ("u") 0 exSalt ("e") ("p") false = .error ("Not an auth DO")
    ∧ login exKdf exMailboxState ("s") 0 ("e") ("p") = .error ("Not an auth DO")
    ∧ validateSession exMailboxState 0 ("t") = .error ("Not an auth DO")
    ∧ logout exMailboxState ("t") = .error ("Not an auth DO")
    ∧ ensureDefaultAdmins exKdf exMailboxState 0 exSalt ("a") ("b") = .error ("Not an auth DO")
    ∧ getUsers exMailboxState = .error ("Not an auth DO")
    ∧ getUserByEmail exMailboxState ("e") = .error ("Not an auth DO")
    ∧ updateUserPassword exKdf exMailboxState 0 exSalt ("u") ("p") = .error ("Not an auth DO")
    ∧ updateUserAdminStatus exMailboxState 0 ("u") false = .error ("Not an auth DO")
    ∧ grantMailboxAccess exMailboxState ("u") ("m") ("r") = .error ("Not an auth DO")
    ∧ revokeMailboxAccess exMailboxState ("u") ("m") = .error ("Not an auth DO")
    ∧ getUserMailboxes exMailboxState ("u") = .error ("Not an auth DO") :=
  non_auth_guards exMailboxState rfl exKdf 0 exSalt ("a") ("b") ("u") ("m") ("r")
    ("e") ("p") ("t") false

end EmailExplorer
